import Mathlib

/-!
Shallow embedding of the firmware-parser core of the repository
(`src/firmware-parser.js`, class `FirmwareParser`).

Numbers: JavaScript numeric values that flow through the parser (unit
coordinates, pixel offsets, the 1.5 gap threshold) are modelled as `ℚ`;
every value the program manipulates on the relevant paths is exactly
representable.  Matrix rows/columns are modelled as `Int` (they come from
`Math.floor` of possibly-negative coordinates or from config matrices).

Strings: modelled as Lean `String`; JavaScript `includes`, `toLowerCase`
and `endsWith` are re-implemented on character lists below so that they
evaluate by kernel reduction (`strContains`, `strToLower`, `strEndsWith`).

JS truthiness: optional fields are `Option _`; a missing field is `none`.
For string fields, the empty string is falsy, any other string truthy.
For array fields, any present array (even empty) is truthy, as in JS.
Fields that the source only ever tests for truthiness (`config.zmk`,
`config.behaviors`, `config.keymap`, `config.qmk`, `config.layout_aliases`)
are modelled as `Bool` carrying that truthiness directly.
-/

/-- Re-implementation of JavaScript `String.prototype.toLowerCase` on
character lists (the library `String.toLower` does not kernel-reduce). -/
def strToLower (s : String) : String := String.mk (s.toList.map Char.toLower)

/-- Helper for `strContains`: does `pat` occur as a contiguous run in the
character list? -/
def strContainsAux (pat : List Char) : List Char → Bool
  | [] => pat.isEmpty
  | c :: rest => pat.isPrefixOf (c :: rest) || strContainsAux pat rest

/-- Re-implementation of JavaScript `String.prototype.includes`. -/
def strContains (s pat : String) : Bool := strContainsAux pat.toList s.toList

/-- Re-implementation of JavaScript `String.prototype.endsWith`. -/
def strEndsWith (s pat : String) : Bool := pat.toList.isSuffixOf s.toList

/-- JS truthiness of an optional string field: present and non-empty. -/
def truthyStr : Option String → Bool
  | some s => !(s = "")
  | none => false

/-- JS `a || b || c || ''` over optional string fields: the first present
truthy (non-empty) string, defaulting to the empty string. -/
def firstNonEmpty : List (Option String) → String
  | [] => ""
  | some s :: rest => if s = "" then firstNonEmpty rest else s
  | none :: rest => firstNonEmpty rest

/-- Which half of a split keyboard a key belongs to (`half` field values
`'left'` / `'right'` in the source). -/
inductive Half where
  | left : Half
  | right : Half
deriving DecidableEq

/-- A generated key object (the record literals pushed into `keys` by the
generators in `firmware-parser.js`).  `half` is `none` when the source's
record has no `half` property (flat-grid generator). -/
structure Key where
  id : ℕ
  row : Int
  col : Int
  x : ℚ
  y : ℚ
  width : ℚ
  height : ℚ
  keycode : String
  half : Option Half
deriving DecidableEq

/-- Default key used as the `List.getD` fallback in theorem statements. -/
def dKey : Key := ⟨0, 0, 0, 0, 0, 0, 0, "", none⟩

/-- One entry of an explicit per-key layout array (`layoutArray` entries in
`generateKeysFromLayout`): abstract unit coordinates, optional matrix pair,
optional width/height multipliers, optional keycode. -/
structure KeyDef where
  x : ℚ
  y : ℚ
  matrix : Option (Int × Int)
  w : Option ℚ
  h : Option ℚ
  keycode : Option String
deriving DecidableEq

/-- Default key definition used as the `List.getD` fallback. -/
def dKeyDef : KeyDef := ⟨0, 0, none, none, none, none⟩

/-- A layout-family catalog entry (`this.keyboardLayouts` values). -/
structure LayoutFamily where
  rows : ℕ
  cols : ℕ
  name : String
deriving DecidableEq

/-- Catalog entry `'tkl'` of `this.keyboardLayouts`. -/
def keyboardLayouts_tkl : LayoutFamily := ⟨6, 17, "Tenkeyless"⟩

/-- Catalog entry `'full'`. -/
def keyboardLayouts_full : LayoutFamily := ⟨6, 21, "Full Size"⟩

/-- Catalog entry `'60'`. -/
def keyboardLayouts_60 : LayoutFamily := ⟨5, 14, "60%"⟩

/-- Catalog entry `'65'`. -/
def keyboardLayouts_65 : LayoutFamily := ⟨5, 16, "65%"⟩

/-- Catalog entry `'75'`. -/
def keyboardLayouts_75 : LayoutFamily := ⟨6, 16, "75%"⟩

/-- Catalog entry `'ortho'`. -/
def keyboardLayouts_ortho : LayoutFamily := ⟨4, 12, "Ortholinear"⟩

/-- Catalog entry `'split'`. -/
def keyboardLayouts_split : LayoutFamily := ⟨4, 6, "Split"⟩

/-- `detectLayoutByKeyCount` (firmware-parser.js lines 618-631): stepped
classifier from key count to layout family. -/
def detectLayoutByKeyCount (keyCount : ℕ) : LayoutFamily :=
  if keyCount ≤ 48 then
    -- Could be ortho or split
    if 36 ≤ keyCount ∧ keyCount ≤ 42 then keyboardLayouts_split
    else keyboardLayouts_ortho
  else if keyCount ≤ 61 then keyboardLayouts_60
  else if keyCount ≤ 68 then keyboardLayouts_65
  else if keyCount ≤ 84 then keyboardLayouts_75
  else if keyCount ≤ 87 then keyboardLayouts_tkl
  else keyboardLayouts_full

/-- `generateKeyPositions` (lines 441-462): flat-grid synthesis.  The loop
index `i` runs over `[0, keyCount)`; `row = Math.floor(i / cols)` and
`col = i % cols` on non-negative integers are `Nat` division/modulus. -/
def generateKeyPositions (keyCount : ℕ) : List Key :=
  let layout := detectLayoutByKeyCount keyCount
  (List.range keyCount).map fun i =>
    { id := i
      row := ((i / layout.cols : ℕ) : Int)
      col := ((i % layout.cols : ℕ) : Int)
      x := ((i % layout.cols : ℕ) : ℚ) * 50 + 10
      y := ((i / layout.cols : ℕ) : ℚ) * 50 + 10
      width := 45
      height := 45
      keycode := "KC_NO"
      half := none }

/-- Insertion of one element into a sorted rational list (helper for
`sortAsc`). -/
def insertSorted (x : ℚ) : List ℚ → List ℚ
  | [] => [x]
  | y :: rest => if x ≤ y then x :: y :: rest else y :: insertSorted x rest

/-- Model of `xCoords.sort((a, b) => a - b)` (line 570): sort a list of
numbers ascending.  Ties are equal rational values, so any sorting
algorithm produces the same list. -/
def sortAsc : List ℚ → List ℚ
  | [] => []
  | x :: rest => insertSorted x (sortAsc rest)

/-- The loop of lines 575-581: scan the sorted x-coordinates keeping the
running maximum adjacent gap (`maxGap`) and the x value just after it
(`gapPosition`); a later gap replaces the running maximum only when
strictly larger. -/
def scanGaps : ℚ → ℚ → ℚ → List ℚ → ℚ × ℚ
  | _, maxGap, gapPos, [] => (maxGap, gapPos)
  | prev, maxGap, gapPos, x :: rest =>
    if maxGap < x - prev then scanGaps x (x - prev) x rest
    else scanGaps x maxGap gapPos rest

/-- `maxGap`/`gapPosition` computation of lines 573-581, starting from
`maxGap = 0`, `gapPosition = 0`. -/
def findSplitGap : List ℚ → ℚ × ℚ
  | [] => (0, 0)
  | x :: rest => scanGaps x 0 0 rest

/-- Differences of adjacent elements of a list; used in theorem statements
to speak about the gaps the loop of lines 575-581 scans. -/
def adjacentGaps : List ℚ → List ℚ
  | [] => []
  | [_] => []
  | a :: b :: rest => (b - a) :: adjacentGaps (b :: rest)

/-- The `rightHalfStartX` value of lines 566-587: `0` unless `isSplit` is
set, the layout array is non-empty, and the maximum adjacent gap of the
sorted x-coordinates strictly exceeds `1.5`, in which case it is the x
value just after that gap. -/
def splitBoundary (layoutArray : List KeyDef) (isSplit : Bool) : ℚ :=
  if isSplit && !layoutArray.isEmpty then
    let g := findSplitGap (sortAsc (layoutArray.map KeyDef.x))
    if 3 / 2 < g.1 then g.2 else 0
  else 0

/-- The body of the `forEach` of lines 589-610: build one key from a layout
entry.  `keyDef.w || 1` and `keyDef.h || 1` default both a missing and a
zero multiplier (JS falsiness of `0`); `keyDef.keycode || 'KC_NO'` defaults
a missing or empty keycode. -/
def mkLayoutKey (isSplit : Bool) (splitGap rightHalfStartX : ℚ) (index : ℕ)
    (keyDef : KeyDef) : Key :=
  let keyX := keyDef.x * 50 + 10
  let keyY := keyDef.y * 50 + 10
  let half : Half :=
    if isSplit then (if rightHalfStartX ≤ keyDef.x then Half.right else Half.left)
    else Half.left
  { id := index
    row := match keyDef.matrix with | some m => m.1 | none => ⌊keyDef.y⌋
    col := match keyDef.matrix with | some m => m.2 | none => ⌊keyDef.x⌋
    x := keyX + (if half = Half.right then (if isSplit then splitGap else 0) else 0)
    y := keyY
    width := (match keyDef.w with | some q => if q = 0 then 1 else q | none => 1) * 45
    height := (match keyDef.h with | some q => if q = 0 then 1 else q | none => 1) * 45
    keycode := match keyDef.keycode with
               | some s => if s = "" then "KC_NO" else s
               | none => "KC_NO"
    half := some half }

/-- The `forEach` of lines 589-610 as index-carrying recursion (`index` is
the forEach index, which also becomes the key id). -/
def buildLayoutKeys (isSplit : Bool) (splitGap rightHalfStartX : ℚ) :
    ℕ → List KeyDef → List Key
  | _, [] => []
  | i, kd :: rest =>
    mkLayoutKey isSplit splitGap rightHalfStartX i kd ::
      buildLayoutKeys isSplit splitGap rightHalfStartX (i + 1) rest

/-- `generateKeysFromLayout` (lines 563-613): coordinate-based synthesis
from an explicit per-key layout array.  `splitGap` is `50` when `isSplit`
(line 565). -/
def generateKeysFromLayout (layoutArray : List KeyDef) (isSplit : Bool) :
    List Key :=
  buildLayoutKeys isSplit (if isSplit then 50 else 0)
    (splitBoundary layoutArray isSplit) 0 layoutArray

/-- The JS value of a `split` config field: either a boolean or an object
carrying `enabled`, `handedness`, `soft_serial_pin` (the only members the
source reads).  `enabled` is modelled by its truthiness. -/
inductive SplitVal where
  | boolean : Bool → SplitVal
  | object : (enabled : Bool) → (handedness : Option String) →
      (soft_serial_pin : Option String) → SplitVal
deriving DecidableEq

/-- The JS value of a `layout` config field: either a layout-name string or
an object whose only member the source reads is `keys`. -/
inductive LayoutField where
  | str : String → LayoutField
  | obj : Option (List Key) → LayoutField
deriving DecidableEq

/-- One named entry of a `layouts` config object; the source only reads its
`layout` member (an array of key definitions). -/
structure LayoutsEntry where
  layout : Option (List KeyDef) := none
deriving DecidableEq

/-- A `matrix` config object: `rows` and `cols`. -/
structure MatrixCfg where
  rows : ℕ
  cols : ℕ
deriving DecidableEq

/-- One entry of a `encoders` config array. -/
structure EncoderCfg where
  name : Option String := none
  pins : Option (List String) := none
  steps : Option ℕ := none

/-- One entry of a `trackballs` / `pointing_devices` config array. -/
structure DeviceCfg where
  name : Option String := none
  type : Option String := none
  sensitivity : Option ℚ := none

/-- One entry of a `displays` config array (or the `oled` object). -/
structure DisplayCfg where
  name : Option String := none
  type : Option String := none
  width : Option ℕ := none
  height : Option ℕ := none

/-- One entry of a `layers` config array. -/
structure LayerCfg where
  name : Option String := none
  keys : Option (List String) := none

/-- A parsed structured-config document (the object `JSON.parse` yields in
`parseJsonFirmware`), restricted to the members the parser reads.  Fields
the source only tests for truthiness are `Bool`; `keys` entries are already
key records as the source returns them verbatim. -/
structure Config where
  zmk : Bool := false
  behaviors : Bool := false
  keymap : Bool := false
  qmk : Bool := false
  layout_aliases : Bool := false
  keyboard_name : Option String := none
  keyboard : Option String := none
  name : Option String := none
  version : Option String := none
  author : Option String := none
  description : Option String := none
  split : Option SplitVal := none
  layout : Option LayoutField := none
  layouts : Option (List (String × LayoutsEntry)) := none
  matrix : Option MatrixCfg := none
  keys : Option (List Key) := none
  encoders : Option (List EncoderCfg) := none
  trackballs : Option (List DeviceCfg) := none
  pointing_devices : Option (List DeviceCfg) := none
  displays : Option (List DisplayCfg) := none
  oled : Option DisplayCfg := none
  layers : Option (List LayerCfg) := none

/-- The empty config object `{}` (used as the default `config` parameter of
`generateSplitKeyPositions`). -/
def emptyConfig : Config := {}

/-- Line 271: `config.split && config.split.enabled` — truthy only when
`split` is an object whose `enabled` member is truthy (a bare boolean has
no `enabled` member). -/
def splitEnabledCheck : Option SplitVal → Bool
  | some (SplitVal.object e _ _) => e
  | _ => false

/-- Line 275: `config.split && (config.split.handedness ||
config.split.soft_serial_pin)`. -/
def splitFeatureCheck : Option SplitVal → Bool
  | some (SplitVal.object _ h s) => truthyStr h || truthyStr s
  | _ => false

/-- Lines 278-290: a truthy `layout` string whose lower-casing contains one
of the split-family name fragments.  A `layout` object is not a string and
never matches (`typeof layoutName === 'string'` fails). -/
def layoutNameSplitCheck : Option LayoutField → Bool
  | some (LayoutField.str s) =>
    if s = "" then false
    else
      let layoutName := strToLower s
      strContains layoutName "split" || strContains layoutName "corne" ||
      strContains layoutName "crkbd" || strContains layoutName "kyria" ||
      strContains layoutName "lily58" || strContains layoutName "iris"
  | _ => false

/-- Lines 293-299: any named sub-layout whose key contains `"split"`. -/
def layoutsKeySplitCheck : Option (List (String × LayoutsEntry)) → Bool
  | some entries => entries.any fun e => strContains (strToLower e.1) "split"
  | none => false

/-- The name fragments checked against the keyboard name (lines 302-307). -/
def splitNameFragments : List String := ["split", "corne", "rattusboard", "crkbd"]

/-- Lines 302-307: the keyboard name
(`config.keyboard_name || config.keyboard || config.name || ''`),
lower-cased, contains a split indicator. -/
def nameSplitCheck (config : Config) : Bool :=
  let keyboardName :=
    strToLower (firstNonEmpty [config.keyboard_name, config.keyboard, config.name])
  strContains keyboardName "split" || strContains keyboardName "corne" ||
  strContains keyboardName "rattusboard" || strContains keyboardName "crkbd"

/-- `detectSplitKeyboard` (lines 269-311): ordered OR of split signals,
returning on the first positive match. -/
def detectSplitKeyboard (config : Config) : Bool :=
  if splitEnabledCheck config.split then true
  else if config.split = some (SplitVal.boolean true) then true
  else if splitFeatureCheck config.split then true
  else if layoutNameSplitCheck config.layout then true
  else if layoutsKeySplitCheck config.layouts then true
  else if nameSplitCheck config then true
  else false

/-- `detectFirmwareType` (lines 260-264). -/
def detectFirmwareType (config : Config) : String :=
  if config.zmk || config.behaviors || config.keymap then "ZMK"
  else if config.qmk || truthyStr config.keyboard || config.layout_aliases then "QMK"
  else "Generic"

/-- The `config.layouts` scan of lines 321-329 and 475-482: the first named
sub-layout carrying a `layout` array (JS `for..in` follows insertion order,
modelled by list order). -/
def firstLayoutArray (config : Config) : Option (List KeyDef) :=
  match config.layouts with
  | none => none
  | some entries => entries.findSome? fun e => e.2.layout

/-- The left-half main-block keys of `generateSplitKeyPositions`
(lines 494-508); sequential ids start at 0, so the key at `(row, col)` has
id `row * 6 + col`. -/
def canonicalLeftMain : List Key :=
  (List.range 3).flatMap fun row =>
    (List.range 6).map fun col =>
      { id := row * 6 + col
        row := (row : Int)
        col := (col : Int)
        x := (col : ℚ) * 50 + 10
        y := (row : ℚ) * 50 + 10
        width := 45
        height := 45
        keycode := "KC_NO"
        half := some Half.left }

/-- The left thumb cluster (lines 511-523); ids continue at 18. -/
def canonicalLeftThumb : List Key :=
  (List.range 3).map fun i =>
    { id := 3 * 6 + i
      row := (3 : Int)
      col := ((3 + i : ℕ) : Int)  -- Centered thumb cluster
      x := ((3 + i : ℕ) : ℚ) * 50 + 10
      y := (3 : ℚ) * 50 + 25      -- Slightly lower
      width := 45
      height := 45
      keycode := "KC_NO"
      half := some Half.left }

/-- The right-half main-block keys (lines 526-540); ids continue at 21 and
x is shifted by the left-half width `6 * 50` plus the `splitGap` of 100. -/
def canonicalRightMain : List Key :=
  (List.range 3).flatMap fun row =>
    (List.range 6).map fun col =>
      { id := 21 + row * 6 + col
        row := (row : Int)
        col := (col : Int)
        x := (col : ℚ) * 50 + 10 + 6 * 50 + 100
        y := (row : ℚ) * 50 + 10
        width := 45
        height := 45
        keycode := "KC_NO"
        half := some Half.right }

/-- The right thumb cluster (lines 543-555); ids continue at 39. -/
def canonicalRightThumb : List Key :=
  (List.range 3).map fun i =>
    { id := 39 + i
      row := (3 : Int)
      col := (i : Int)
      x := (i : ℚ) * 50 + 10 + 6 * 50 + 100
      y := (3 : ℚ) * 50 + 25      -- Slightly lower
      width := 45
      height := 45
      keycode := "KC_NO"
      half := some Half.right }

/-- The fixed Corne-like split shape built by lines 484-557 when no
explicit layout array is available: 3 main rows × 6 columns per half plus
3 thumb keys per half, left half first. -/
def canonicalSplitKeys : List Key :=
  canonicalLeftMain ++ canonicalLeftThumb ++ canonicalRightMain ++ canonicalRightThumb

/-- `generateSplitKeyPositions` (lines 467-558): with an explicit per-key
layout array in `config.layouts`, delegate to coordinate-based synthesis;
otherwise produce the fixed canonical split shape.  The `keyCount`
parameter only feeds the unused `leftKeys`/`rightKeys` locals of
lines 471-472 and does not influence the result. -/
def generateSplitKeyPositions (keyCount : ℕ) (config : Config) : List Key :=
  match firstLayoutArray config with
  | some arr => generateKeysFromLayout arr true
  | none => canonicalSplitKeys

/-- A resolved encoder record (`extractEncoders` output entries). -/
structure Encoder where
  id : ℕ
  name : String
  pins : List String
  steps : ℕ
deriving DecidableEq

/-- A resolved trackball record (`extractTrackballs` output entries). -/
structure Trackball where
  id : ℕ
  name : String
  type : String
  sensitivity : ℚ
deriving DecidableEq

/-- A resolved display record (`extractDisplays` output entries). -/
structure Display where
  id : ℕ
  name : String
  type : String
  width : ℕ
  height : ℕ
deriving DecidableEq

/-- A resolved layer (`{ name, keys }` records pushed into `layers`). -/
structure Layer where
  name : String
  keys : List String
deriving DecidableEq

/-- The layout slot of a parsed model: either the raw `config.layout` value
copied through by `parseJsonFirmware`, or a resolved catalog family. -/
inductive LayoutVal where
  | raw : LayoutField → LayoutVal
  | fam : LayoutFamily → LayoutVal
deriving DecidableEq

/-- The `metadata` map of a parsed model (only the members the source ever
writes). -/
structure Metadata where
  version : Option String := none
  author : Option String := none
  description : Option String := none
  isSplit : Option Bool := none
  split : Option SplitVal := none
  note : Option String := none
deriving DecidableEq

/-- The normalized keyboard model (`parsedData` object of the source). -/
structure ParsedData where
  type : String
  name : String
  layout : Option LayoutVal
  keys : List Key
  encoders : List Encoder
  trackballs : List Trackball
  displays : List Display
  layers : List Layer
  metadata : Metadata

/-- `config.layout && config.layout.keys` of line 318: a truthy `layout`
object carrying a truthy (present) `keys` array. -/
def layoutKeysField (config : Config) : Option (List Key) :=
  match config.layout with
  | some (LayoutField.obj (some ks)) => some ks
  | _ => none

/-- `extractKeys` (lines 316-347): first-available source of key records —
explicit `keys` array (returned verbatim); nested `layout.keys`; first
sub-layout coordinate array (through coordinate-based synthesis); matrix
`rows * cols` (flat or split synthesis by split signal); hard default of
42 split keys or 61 flat keys. -/
def extractKeys (config : Config) : List Key :=
  match config.keys with
  | some ks => ks
  | none =>
  match layoutKeysField config with
  | some ks => ks
  | none =>
  match firstLayoutArray config with
  | some arr => generateKeysFromLayout arr (detectSplitKeyboard config)
  | none =>
  match config.matrix with
  | some m =>
    if detectSplitKeyboard config then
      generateSplitKeyPositions (m.rows * m.cols) config
    else generateKeyPositions (m.rows * m.cols)
  | none =>
    if detectSplitKeyboard config then
      generateSplitKeyPositions 42 config  -- Default split (like Corne)
    else generateKeyPositions 61           -- Default 60%

/-- `extractEncoders` (lines 352-365); `encoder.steps || 20` also replaces
an explicit `0` (JS falsiness). -/
def extractEncoders (config : Config) : List Encoder :=
  match config.encoders with
  | none => []
  | some es =>
    es.mapIdx fun index e =>
      { id := index
        name := match e.name with
                | some s => if s = "" then "Encoder " ++ toString (index + 1) else s
                | none => "Encoder " ++ toString (index + 1)
        pins := match e.pins with | some ps => ps | none => []
        steps := match e.steps with | some n => if n = 0 then 20 else n | none => 20 }

/-- `extractTrackballs` (lines 370-384): `config.trackballs ||
config.pointing_devices`. -/
def extractTrackballs (config : Config) : List Trackball :=
  let build : List DeviceCfg → List Trackball := fun devices =>
    devices.mapIdx fun index device =>
      { id := index
        name := match device.name with
                | some s => if s = "" then "Trackball " ++ toString (index + 1) else s
                | none => "Trackball " ++ toString (index + 1)
        type := match device.type with
                | some s => if s = "" then "trackball" else s
                | none => "trackball"
        sensitivity := match device.sensitivity with
                       | some q => if q = 0 then 1 else q
                       | none => 1 }
  match config.trackballs, config.pointing_devices with
  | some ds, _ => build ds
  | none, some ds => build ds
  | none, none => []

/-- `extractDisplays` (lines 389-404): `config.displays || [config.oled]`. -/
def extractDisplays (config : Config) : List Display :=
  let build : List DisplayCfg → List Display := fun displayConfigs =>
    displayConfigs.mapIdx fun index display =>
      { id := index
        name := match display.name with
                | some s => if s = "" then "Display " ++ toString (index + 1) else s
                | none => "Display " ++ toString (index + 1)
        type := match display.type with
                | some s => if s = "" then "oled" else s
                | none => "oled"
        width := match display.width with | some n => if n = 0 then 128 else n | none => 128
        height := match display.height with | some n => if n = 0 then 32 else n | none => 32 }
  match config.displays, config.oled with
  | some ds, _ => build ds
  | none, some o => build [o]
  | none, none => []

/-- `extractLayers` (lines 409-420); the layer-name fallback uses the
0-based index (`Layer ${index}`). -/
def extractLayers (config : Config) : List Layer :=
  match config.layers with
  | none => []
  | some ls =>
    ls.mapIdx fun index layer =>
      { name := match layer.name with
                | some s => if s = "" then "Layer " ++ toString index else s
                | none => "Layer " ++ toString index
        keys := match layer.keys with | some ks => ks | none => [] }

/-- The catalog as `Object.entries(this.keyboardLayouts)` enumerates it:
JS object property order places integer-like keys (`'60'`, `'65'`, `'75'`)
first in ascending numeric order, then the remaining keys in insertion
order (`'tkl'`, `'full'`, `'ortho'`, `'split'`). -/
def keyboardLayoutsEntries : List (String × LayoutFamily) :=
  [("60", keyboardLayouts_60), ("65", keyboardLayouts_65), ("75", keyboardLayouts_75),
   ("tkl", keyboardLayouts_tkl), ("full", keyboardLayouts_full),
   ("ortho", keyboardLayouts_ortho), ("split", keyboardLayouts_split)]

/-- `detectLayoutFromConfig` (lines 636-662). -/
def detectLayoutFromConfig (config : Config) : Option LayoutFamily :=
  if detectSplitKeyboard config then some keyboardLayouts_split
  else
    let fromName : Option LayoutFamily :=
      match config.layout with
      | none => none
      | some (LayoutField.str s) =>
        if s = "" then none  -- empty string is falsy: `if (config.layout)` fails
        else
          let layoutName := strToLower s
          keyboardLayoutsEntries.findSome? fun e =>
            if strContains layoutName e.1 || strContains layoutName (strToLower e.2.name)
            then some e.2 else none
      | some (LayoutField.obj _) =>
        -- an object has no `toLowerCase` and is not a string: layoutName = ''
        keyboardLayoutsEntries.findSome? fun e =>
          if strContains "" e.1 || strContains "" (strToLower e.2.name)
          then some e.2 else none
    match fromName with
    | some fam => some fam
    | none =>
      match config.layouts with
      | some entries =>
        if entries.any (fun e => strContains (strToLower e.1) "split")
        then some keyboardLayouts_split else none
      | none => none

/-- The `layout` field assembled on line 93:
`config.layout || this.detectLayoutFromConfig(config)` — a truthy raw
`layout` value is copied through, otherwise the resolved family (if any). -/
def parsedLayout (config : Config) : Option LayoutVal :=
  match config.layout with
  | some (LayoutField.str s) =>
    if s = "" then (detectLayoutFromConfig config).map LayoutVal.fam
    else some (LayoutVal.raw (LayoutField.str s))
  | some (LayoutField.obj o) => some (LayoutVal.raw (LayoutField.obj o))
  | none => (detectLayoutFromConfig config).map LayoutVal.fam

/-- `parseJsonFirmware` (lines 86-112) after a successful `JSON.parse`:
field-by-field assembly of the draft model from the config object. -/
def parseJsonFirmware (config : Config) (fileName : String) : ParsedData :=
  { type := detectFirmwareType config
    name :=
      (let n := firstNonEmpty [config.keyboard_name, config.keyboard, config.name]
       if n = "" then fileName else n)
    layout := parsedLayout config
    keys := extractKeys config
    encoders := extractEncoders config
    trackballs := extractTrackballs config
    displays := extractDisplays config
    layers := extractLayers config
    metadata :=
      { version := config.version
        author := config.author
        description := config.description
        isSplit := some (detectSplitKeyboard config)
        split := config.split } }

/-- The results of the regex-based text scanning of `parseZmkKeymap`
(lines 130-162), which a shallow embedding cannot express directly:
the device name taken from the first include-like reference (line 131,
with the `.dtsi` suffix stripped), the split textual cues of lines 137-141,
and the named layers with their whitespace-split binding tokens
(lines 144-162). -/
structure ZmkScan where
  includeName : Option String
  isSplitFromContent : Bool
  layers : List Layer

/-- The split condition of line 169:
`isSplitFromContent || (firstLayerKeyCount >= 30 && firstLayerKeyCount <= 50)`. -/
def zmkSplitCondition (isSplitFromContent : Bool) (count : ℕ) : Bool :=
  isSplitFromContent || (decide (30 ≤ count) && decide (count ≤ 50))

/-- `parseZmkKeymap` (lines 117-178), parameterized by the text-scanning
results (`ZmkScan`): geometry synthesis from the first layer's token count
(lines 164-175) — split-grid with `metadata.isSplit = true` when the split
condition holds, flat-grid otherwise; no layout is assigned (the
dispatcher's `detectLayout` pass fills it in). -/
def parseZmkKeymap (scan : ZmkScan) (fileName : String) : ParsedData :=
  { type := "ZMK"
    name := match scan.includeName with | some n => n | none => fileName
    layout := none
    keys :=
      match scan.layers with
      | [] => []
      | l0 :: _ =>
        if zmkSplitCondition scan.isSplitFromContent l0.keys.length then
          generateSplitKeyPositions l0.keys.length emptyConfig
        else generateKeyPositions l0.keys.length
    encoders := []
    trackballs := []
    displays := []
    layers := scan.layers
    metadata :=
      { isSplit :=
          match scan.layers with
          | [] => none
          | l0 :: _ =>
            if zmkSplitCondition scan.isSplitFromContent l0.keys.length then some true
            else none } }

/-- `parseBinaryFirmware` (lines 236-255): the fixed stub model for
compiled binaries, total in the file name. -/
def parseBinaryFirmware (fileName : String) : ParsedData :=
  { type := if strEndsWith fileName ".uf2" then "ZMK" else "QMK"
    name := fileName
    layout := some (LayoutVal.fam keyboardLayouts_60)  -- Default assumption
    keys := generateKeyPositions 61                    -- Standard 60% layout
    encoders := []
    trackballs := []
    displays := []
    layers := [⟨"base", List.replicate 61 "KC_NO"⟩]
    metadata := { note := some "Binary firmware - limited parsing available" } }

/-- `detectLayout` (lines 667-691): the dispatcher's layout-family
inference pass over a draft model that still lacks a layout. -/
def detectLayout (parsedData : ParsedData) : LayoutFamily :=
  if parsedData.metadata.isSplit = some true then keyboardLayouts_split
  else if parsedData.keys.any (fun k => k.half.isSome) then keyboardLayouts_split
  else if parsedData.type = "ZMK" ∧ 0 < parsedData.keys.length ∧
          (30 ≤ parsedData.keys.length ∧ parsedData.keys.length ≤ 50) then
    keyboardLayouts_split
  else if 0 < parsedData.keys.length then detectLayoutByKeyCount parsedData.keys.length
  else keyboardLayouts_60  -- Default

/-- The structured config of the C5 end-to-end scenario:
`{keyboard: "Corne", split: {enabled: true}}`. -/
def c5Config : Config :=
  { keyboard := some "Corne", split := some (SplitVal.object true none none) }

/-- A structured config supplying an explicit `keys` array whose single key
has id 7 (exercises the verbatim passthrough of line 317). -/
def explicitKeysConfig : Config :=
  { keys := some [⟨7, 0, 0, 10, 10, 45, 45, "KC_A", none⟩] }

/-- A config with an explicit `split: true` flag and a name containing no
split fragment. -/
def cfgSplitFlag : Config :=
  { split := some (SplitVal.boolean true), keyboard := some "planck" }

/-- A config with no split fields whose keyboard name is `"Corne"`. -/
def cfgCorneName : Config := { keyboard := some "Corne" }

/-- A config carrying no split signal at all. -/
def cfgNoSignal : Config := { keyboard := some "planck" }

/-- A layout entry with a unit x-coordinate on row 0 and no optional
members. -/
def unitKeyDef (x : ℚ) : KeyDef := ⟨x, 0, none, none, none, none⟩

/-- The twelve-key layout array with unit x-coordinates
0,1,2,3,4,5,10,11,12,13,14,15 from the gap-detection scenario. -/
def layout12 : List KeyDef :=
  ([0, 1, 2, 3, 4, 5, 10, 11, 12, 13, 14, 15] : List ℚ).map unitKeyDef

/-- A two-key layout array with unit x-coordinates 0 and 1 (maximum
adjacent gap 1, below the 1.5 threshold). -/
def twoKeyLayout : List KeyDef := [unitKeyDef 0, unitKeyDef 1]

/-- The scan of a declarative-keymap text containing exactly one layer
with 48 binding tokens and no split textual cues. -/
def scan48 : ZmkScan := ⟨none, false, [⟨"default_layer", List.replicate 48 "&kp A"⟩]⟩

/-- Claim C3: `detectLayoutByKeyCount` is a total deterministic step
function: n ∈ [36,42] → split; n ≤ 48 outside that range → ortholinear;
n ≤ 61 → 60%; n ≤ 68 → 65%; n ≤ 84 → 75%; n ≤ 87 → tenkeyless; larger →
full; in particular 42 → split, 48 → ortholinear, 61 → 60%, 62 → 65%. -/
theorem claim_C3_step_classifier :
    (∀ n : ℕ,
      ((36 ≤ n ∧ n ≤ 42) → detectLayoutByKeyCount n = keyboardLayouts_split) ∧
      ((n ≤ 48 ∧ ¬(36 ≤ n ∧ n ≤ 42)) → detectLayoutByKeyCount n = keyboardLayouts_ortho) ∧
      ((48 < n ∧ n ≤ 61) → detectLayoutByKeyCount n = keyboardLayouts_60) ∧
      ((61 < n ∧ n ≤ 68) → detectLayoutByKeyCount n = keyboardLayouts_65) ∧
      ((68 < n ∧ n ≤ 84) → detectLayoutByKeyCount n = keyboardLayouts_75) ∧
      ((84 < n ∧ n ≤ 87) → detectLayoutByKeyCount n = keyboardLayouts_tkl) ∧
      (87 < n → detectLayoutByKeyCount n = keyboardLayouts_full)) ∧
    detectLayoutByKeyCount 42 = keyboardLayouts_split ∧
    detectLayoutByKeyCount 48 = keyboardLayouts_ortho ∧
    detectLayoutByKeyCount 61 = keyboardLayouts_60 ∧
    detectLayoutByKeyCount 62 = keyboardLayouts_65 := by
  constructor
  · intro n
    unfold detectLayoutByKeyCount
    refine ⟨?_, ?_, ?_, ?_, ?_, ?_, ?_⟩ <;>
      intro h <;> split_ifs <;> first | rfl | (exfalso; omega)
  · exact ⟨by decide, by decide, by decide, by decide⟩

/-- Witness for C3 at the concrete count 40. -/
theorem claim_C3_step_classifier_witness :
    detectLayoutByKeyCount 40 = keyboardLayouts_split :=
  (claim_C3_step_classifier.1 40).1 (by decide)

/-- Claim C6: flat-grid synthesis of n keys yields exactly n keys with
ids 0..n-1; the key at index j has row `j / cols`, col `j % cols` (cols
from the classified family), pixel position `(col*50+10, row*50+10)` with
non-negative coordinates, a 45×45 box, and the placeholder keycode. -/
theorem claim_C6_flat_grid : ∀ (n j : ℕ), j < n →
    (generateKeyPositions n).length = n ∧
    (generateKeyPositions n).map Key.id = List.range n ∧
    ((generateKeyPositions n).getD j dKey).id = j ∧
    ((generateKeyPositions n).getD j dKey).row =
      ((j / (detectLayoutByKeyCount n).cols : ℕ) : Int) ∧
    ((generateKeyPositions n).getD j dKey).col =
      ((j % (detectLayoutByKeyCount n).cols : ℕ) : Int) ∧
    ((generateKeyPositions n).getD j dKey).x =
      ((j % (detectLayoutByKeyCount n).cols : ℕ) : ℚ) * 50 + 10 ∧
    ((generateKeyPositions n).getD j dKey).y =
      ((j / (detectLayoutByKeyCount n).cols : ℕ) : ℚ) * 50 + 10 ∧
    0 ≤ ((generateKeyPositions n).getD j dKey).x ∧
    0 ≤ ((generateKeyPositions n).getD j dKey).y ∧
    ((generateKeyPositions n).getD j dKey).width = 45 ∧
    ((generateKeyPositions n).getD j dKey).height = 45 ∧
    ((generateKeyPositions n).getD j dKey).keycode = "KC_NO" := by
  intro n j hj
  have hlen : (generateKeyPositions n).length = n := by
    simp [generateKeyPositions]
  have hmap : (generateKeyPositions n).map Key.id = List.range n := by
    unfold generateKeyPositions
    rw [List.map_map]
    exact List.map_id' _
  have hget : (generateKeyPositions n).getD j dKey =
      { id := j
        row := ((j / (detectLayoutByKeyCount n).cols : ℕ) : Int)
        col := ((j % (detectLayoutByKeyCount n).cols : ℕ) : Int)
        x := ((j % (detectLayoutByKeyCount n).cols : ℕ) : ℚ) * 50 + 10
        y := ((j / (detectLayoutByKeyCount n).cols : ℕ) : ℚ) * 50 + 10
        width := 45
        height := 45
        keycode := "KC_NO"
        half := none } := by
    rw [List.getD_eq_getElem _ _ (by rw [hlen]; exact hj)]
    simp only [generateKeyPositions, List.getElem_map, List.getElem_range]
  refine ⟨hlen, hmap, ?_, ?_, ?_, ?_, ?_, ?_, ?_, ?_, ?_, ?_⟩ <;> rw [hget]
  · show (0 : ℚ) ≤ ((j % (detectLayoutByKeyCount n).cols : ℕ) : ℚ) * 50 + 10
    positivity
  · show (0 : ℚ) ≤ ((j / (detectLayoutByKeyCount n).cols : ℕ) : ℚ) * 50 + 10
    positivity

/-- Witness for C6 at n = 5, j = 2. -/
theorem claim_C6_flat_grid_witness :
    (generateKeyPositions 5).length = 5 ∧
    (generateKeyPositions 5).map Key.id = List.range 5 ∧
    ((generateKeyPositions 5).getD 2 dKey).id = 2 ∧
    ((generateKeyPositions 5).getD 2 dKey).row =
      ((2 / (detectLayoutByKeyCount 5).cols : ℕ) : Int) ∧
    ((generateKeyPositions 5).getD 2 dKey).col =
      ((2 % (detectLayoutByKeyCount 5).cols : ℕ) : Int) ∧
    ((generateKeyPositions 5).getD 2 dKey).x =
      ((2 % (detectLayoutByKeyCount 5).cols : ℕ) : ℚ) * 50 + 10 ∧
    ((generateKeyPositions 5).getD 2 dKey).y =
      ((2 / (detectLayoutByKeyCount 5).cols : ℕ) : ℚ) * 50 + 10 ∧
    0 ≤ ((generateKeyPositions 5).getD 2 dKey).x ∧
    0 ≤ ((generateKeyPositions 5).getD 2 dKey).y ∧
    ((generateKeyPositions 5).getD 2 dKey).width = 45 ∧
    ((generateKeyPositions 5).getD 2 dKey).height = 45 ∧
    ((generateKeyPositions 5).getD 2 dKey).keycode = "KC_NO" :=
  claim_C6_flat_grid 5 2 (by decide)

/-- Claim C9: the binary fallback extractor is total and yields the fixed
stub model: type ZMK for a `.uf2` name and QMK otherwise, the 60% family,
the 61 flat-grid keys, one layer of 61 placeholder keycodes, and the
degraded-parsing note. -/
theorem claim_C9_binary_stub : ∀ fileName : String,
    (parseBinaryFirmware fileName).type =
      (if strEndsWith fileName ".uf2" then "ZMK" else "QMK") ∧
    (parseBinaryFirmware fileName).layout = some (LayoutVal.fam keyboardLayouts_60) ∧
    (parseBinaryFirmware fileName).keys = generateKeyPositions 61 ∧
    (parseBinaryFirmware fileName).keys.length = 61 ∧
    (parseBinaryFirmware fileName).layers = [⟨"base", List.replicate 61 "KC_NO"⟩] ∧
    (parseBinaryFirmware fileName).encoders = [] ∧
    (parseBinaryFirmware fileName).trackballs = [] ∧
    (parseBinaryFirmware fileName).displays = [] ∧
    (parseBinaryFirmware fileName).metadata.note =
      some "Binary firmware - limited parsing available" ∧
    (parseBinaryFirmware fileName).metadata.isSplit = none := by
  intro fileName
  refine ⟨rfl, rfl, rfl, ?_, rfl, rfl, rfl, rfl, rfl, rfl⟩
  simp [parseBinaryFirmware, generateKeyPositions]

/-- Counterexample to claim C5: on `{keyboard: "Corne", split: {enabled:
true}}` the firmware type is not `Generic` — the `keyboard` field is a QMK
signal in `detectFirmwareType`, so the claimed conjunction fails. -/
theorem claim_C5_counterexample :
    ¬ ((parseJsonFirmware c5Config "corne.json").keys.length = 42 ∧
       (∀ k ∈ (parseJsonFirmware c5Config "corne.json").keys, k.half.isSome = true) ∧
       (parseJsonFirmware c5Config "corne.json").layout =
         some (LayoutVal.fam keyboardLayouts_split) ∧
       (parseJsonFirmware c5Config "corne.json").type = "Generic") := by
  decide

/-- Claim C5 as amended: the config yields 42 keys, every key carrying
`half`, the split layout family and a split metadata flag — but firmware
type `QMK` (the truthy `keyboard` field is a QMK signal), not `Generic`. -/
theorem claim_C5_corne_config :
    (parseJsonFirmware c5Config "corne.json").keys.length = 42 ∧
    (∀ k ∈ (parseJsonFirmware c5Config "corne.json").keys, k.half.isSome = true) ∧
    (parseJsonFirmware c5Config "corne.json").layout =
      some (LayoutVal.fam keyboardLayouts_split) ∧
    (parseJsonFirmware c5Config "corne.json").type = "QMK" ∧
    (parseJsonFirmware c5Config "corne.json").metadata.isSplit = some true := by
  decide

/-- Claim C8: ordered split signals — an explicit split-enabled flag
(`split.enabled` truthy or `split === true`) classifies split regardless of
the name; with no split field, a keyboard name containing `"corne"`
classifies split; with no field-based or name-based signal at all the
result is false. -/
theorem claim_C8_split_signals :
    (∀ config : Config,
      (config.split = some (SplitVal.boolean true) ∨
       ∃ h s, config.split = some (SplitVal.object true h s)) →
      detectSplitKeyboard config = true) ∧
    (∀ config : Config, config.split = none →
      strContains
        (strToLower (firstNonEmpty [config.keyboard_name, config.keyboard, config.name]))
        "corne" = true →
      detectSplitKeyboard config = true) ∧
    (∀ config : Config,
      config.split = none → config.layout = none → config.layouts = none →
      (∀ frag ∈ splitNameFragments,
        strContains
          (strToLower (firstNonEmpty [config.keyboard_name, config.keyboard, config.name]))
          frag = false) →
      detectSplitKeyboard config = false) := by
  refine ⟨?_, ?_, ?_⟩
  · intro config h
    unfold detectSplitKeyboard
    rcases h with h | ⟨hh, hs, h⟩ <;> rw [h] <;> simp [splitEnabledCheck]
  · intro config hsplit hcorne
    have hn : nameSplitCheck config = true := by
      unfold nameSplitCheck
      simp only [hcorne]
      simp
    unfold detectSplitKeyboard
    rw [hsplit]
    simp [splitEnabledCheck, splitFeatureCheck, hn]
  · intro config hsplit hlayout hlayouts hfrag
    have hn : nameSplitCheck config = false := by
      unfold nameSplitCheck
      simp only [hfrag "split" (by decide), hfrag "corne" (by decide),
          hfrag "rattusboard" (by decide), hfrag "crkbd" (by decide)]
      rfl
    unfold detectSplitKeyboard
    rw [hsplit, hlayout, hlayouts]
    simp [splitEnabledCheck, splitFeatureCheck, layoutNameSplitCheck,
          layoutsKeySplitCheck, hn]

/-- Witness for C8 on three concrete configs. -/
theorem claim_C8_split_signals_witness :
    detectSplitKeyboard cfgSplitFlag = true ∧
    detectSplitKeyboard cfgCorneName = true ∧
    detectSplitKeyboard cfgNoSignal = false :=
  ⟨claim_C8_split_signals.1 cfgSplitFlag (Or.inl rfl),
   claim_C8_split_signals.2.1 cfgCorneName rfl (by decide),
   claim_C8_split_signals.2.2 cfgNoSignal rfl rfl rfl (by decide)⟩

/-- Counterexample to claim C10: a structured config with an explicit
`keys` array (single key of id 7) is passed through verbatim, so the
resulting model's key ids are not dense 0..N-1. -/
theorem claim_C10_counterexample :
    ¬ ((parseJsonFirmware explicitKeysConfig "custom.json").keys.map Key.id =
       List.range (parseJsonFirmware explicitKeysConfig "custom.json").keys.length) := by
  decide

/-- The index-carrying build of coordinate-based keys preserves length. -/
theorem buildLayoutKeys_length (s : Bool) (g r : ℚ) :
    ∀ (i : ℕ) (l : List KeyDef), (buildLayoutKeys s g r i l).length = l.length := by
  intro i l
  induction l generalizing i with
  | nil => rfl
  | cons kd rest ih => simp [buildLayoutKeys, ih]

/-- The ids produced by the index-carrying build are consecutive starting
at the initial index. -/
theorem buildLayoutKeys_map_id (s : Bool) (g r : ℚ) :
    ∀ (l : List KeyDef) (i : ℕ),
      (buildLayoutKeys s g r i l).map Key.id = List.range' i l.length := by
  intro l
  induction l with
  | nil => intro i; rfl
  | cons kd rest ih =>
    intro i
    show Key.id (mkLayoutKey s g r i kd) :: (buildLayoutKeys s g r (i + 1) rest).map Key.id =
      List.range' i (rest.length + 1)
    rw [List.range'_succ, ih (i + 1)]
    rfl

/-- Element access for the index-carrying build. -/
theorem buildLayoutKeys_getD (s : Bool) (g r : ℚ) :
    ∀ (l : List KeyDef) (i j : ℕ), j < l.length →
      (buildLayoutKeys s g r i l).getD j dKey =
        mkLayoutKey s g r (i + j) (l.getD j dKeyDef) := by
  intro l
  induction l with
  | nil => intro i j hj; simp at hj
  | cons kd rest ih =>
    intro i j hj
    match j with
    | 0 => simp [buildLayoutKeys]
    | j' + 1 =>
      have h2 := ih (i + 1) j' (by simpa using hj)
      have hidx : i + 1 + j' = i + (j' + 1) := by omega
      rw [hidx] at h2
      simpa [buildLayoutKeys, List.getD_cons_succ] using h2

/-- Claim C10 as amended: key ids are unique and contiguous from 0 for all
synthesized key lists — flat-grid, split-grid and coordinate-based
generators (an explicit `keys` array, by contrast, is passed through
verbatim and carries whatever ids the config supplies). -/
theorem claim_C10_dense_ids :
    (∀ n : ℕ, (generateKeyPositions n).map Key.id =
      List.range (generateKeyPositions n).length) ∧
    (∀ (n : ℕ) (config : Config),
      (generateSplitKeyPositions n config).map Key.id =
        List.range (generateSplitKeyPositions n config).length) ∧
    (∀ (arr : List KeyDef) (isSplit : Bool),
      (generateKeysFromLayout arr isSplit).map Key.id =
        List.range (generateKeysFromLayout arr isSplit).length) := by
  have hcoord : ∀ (arr : List KeyDef) (s : Bool),
      (generateKeysFromLayout arr s).map Key.id =
        List.range (generateKeysFromLayout arr s).length := by
    intro arr s
    unfold generateKeysFromLayout
    rw [buildLayoutKeys_map_id, buildLayoutKeys_length, List.range_eq_range' arr.length]
  refine ⟨?_, ?_, hcoord⟩
  · intro n
    have hlen : (generateKeyPositions n).length = n := by
      simp [generateKeyPositions]
    rw [hlen]
    unfold generateKeyPositions
    rw [List.map_map]
    exact List.map_id' _
  · intro n config
    cases h : firstLayoutArray config with
    | some arr =>
      simp only [generateSplitKeyPositions, h]
      exact hcoord arr true
    | none =>
      simp only [generateSplitKeyPositions, h]
      decide

/-- Geometry of the canonical split shape: left-half keys sit at
`col*50+10`, right-half keys at `col*50+10` shifted by the left-half width
plus the 100px gap; thumb-row keys (row 3) sit 15px below the grid line,
main-row keys on it. -/
theorem canonicalSplitKeys_geometry : ∀ k ∈ canonicalSplitKeys,
    (k.half = some Half.left → k.x = (k.col : ℚ) * 50 + 10) ∧
    (k.half = some Half.right → k.x = (k.col : ℚ) * 50 + 10 + 6 * 50 + 100) ∧
    (k.row = 3 → k.y = (3 : ℚ) * 50 + 10 + 15) ∧
    (k.row < 3 → k.y = (k.row : ℚ) * 50 + 10) := by
  intro k hk
  unfold canonicalSplitKeys at hk
  rcases List.mem_append.mp hk with hk1 | hkD
  · rcases List.mem_append.mp hk1 with hk2 | hkC
    · rcases List.mem_append.mp hk2 with hkA | hkB
      · -- left main block
        unfold canonicalLeftMain at hkA
        obtain ⟨row, hrow, hk3⟩ := List.mem_flatMap.mp hkA
        obtain ⟨col, hcol, rfl⟩ := List.mem_map.mp hk3
        rw [List.mem_range] at hrow
        refine ⟨?_, ?_, ?_, ?_⟩
        · intro _
          show ((col : ℕ) : ℚ) * 50 + 10 = (((col : ℕ) : Int) : ℚ) * 50 + 10
          push_cast
          ring
        · intro hr
          have h2 : (some Half.left : Option Half) = some Half.right := hr
          simp at h2
        · intro hr
          have h3 : ((row : ℕ) : Int) = 3 := hr
          omega
        · intro _
          show ((row : ℕ) : ℚ) * 50 + 10 = (((row : ℕ) : Int) : ℚ) * 50 + 10
          push_cast
          ring
      · -- left thumb cluster
        unfold canonicalLeftThumb at hkB
        obtain ⟨i, hi, rfl⟩ := List.mem_map.mp hkB
        refine ⟨?_, ?_, ?_, ?_⟩
        · intro _
          show ((3 + i : ℕ) : ℚ) * 50 + 10 = (((3 + i : ℕ) : Int) : ℚ) * 50 + 10
          push_cast
          ring
        · intro hr
          have h2 : (some Half.left : Option Half) = some Half.right := hr
          simp at h2
        · intro _
          show (3 : ℚ) * 50 + 25 = (3 : ℚ) * 50 + 10 + 15
          norm_num
        · intro hr
          have h3 : (3 : Int) < 3 := hr
          omega
    · -- right main block
      unfold canonicalRightMain at hkC
      obtain ⟨row, hrow, hk3⟩ := List.mem_flatMap.mp hkC
      obtain ⟨col, hcol, rfl⟩ := List.mem_map.mp hk3
      rw [List.mem_range] at hrow
      refine ⟨?_, ?_, ?_, ?_⟩
      · intro hr
        have h2 : (some Half.right : Option Half) = some Half.left := hr
        simp at h2
      · intro _
        show ((col : ℕ) : ℚ) * 50 + 10 + 6 * 50 + 100 =
          (((col : ℕ) : Int) : ℚ) * 50 + 10 + 6 * 50 + 100
        push_cast
        ring
      · intro hr
        have h3 : ((row : ℕ) : Int) = 3 := hr
        omega
      · intro _
        show ((row : ℕ) : ℚ) * 50 + 10 = (((row : ℕ) : Int) : ℚ) * 50 + 10
        push_cast
        ring
  · -- right thumb cluster
    unfold canonicalRightThumb at hkD
    obtain ⟨i, hi, rfl⟩ := List.mem_map.mp hkD
    refine ⟨?_, ?_, ?_, ?_⟩
    · intro hr
      have h2 : (some Half.right : Option Half) = some Half.left := hr
      simp at h2
    · intro _
      show ((i : ℕ) : ℚ) * 50 + 10 + 6 * 50 + 100 =
        (((i : ℕ) : Int) : ℚ) * 50 + 10 + 6 * 50 + 100
      push_cast
      ring
    · intro _
      show (3 : ℚ) * 50 + 25 = (3 : ℚ) * 50 + 10 + 15
      norm_num
    · intro hr
      have h3 : (3 : Int) < 3 := hr
      omega

/-- Claim C7: split-grid synthesis without an explicit per-key layout
returns the fixed canonical split shape regardless of the requested key
count: 42 keys (3 main rows × 6 columns plus 3 thumb keys per half),
right-half x-positions shifted by the left-half width plus a constant
100px gap, thumb keys 15px below the main grid rows, every key carrying
`half`, and all left-half ids preceding all right-half ids. -/
theorem claim_C7_canonical_split : ∀ (n : ℕ) (config : Config),
    firstLayoutArray config = none →
    (generateSplitKeyPositions n config).length = 42 ∧
    (∀ k ∈ generateSplitKeyPositions n config, k.half.isSome = true) ∧
    (∀ k ∈ generateSplitKeyPositions n config,
      k.half = some Half.left → k.x = (k.col : ℚ) * 50 + 10) ∧
    (∀ k ∈ generateSplitKeyPositions n config,
      k.half = some Half.right → k.x = (k.col : ℚ) * 50 + 10 + 6 * 50 + 100) ∧
    (∀ k ∈ generateSplitKeyPositions n config,
      k.row = 3 → k.y = (3 : ℚ) * 50 + 10 + 15) ∧
    (∀ k ∈ generateSplitKeyPositions n config,
      k.row < 3 → k.y = (k.row : ℚ) * 50 + 10) ∧
    ((generateSplitKeyPositions n config).filter
      (fun k => decide (k.half = some Half.left) && decide (k.row < 3))).length = 18 ∧
    ((generateSplitKeyPositions n config).filter
      (fun k => decide (k.half = some Half.left) && decide (k.row = 3))).length = 3 ∧
    ((generateSplitKeyPositions n config).filter
      (fun k => decide (k.half = some Half.right) && decide (k.row < 3))).length = 18 ∧
    ((generateSplitKeyPositions n config).filter
      (fun k => decide (k.half = some Half.right) && decide (k.row = 3))).length = 3 ∧
    (∀ k ∈ generateSplitKeyPositions n config, ∀ k2 ∈ generateSplitKeyPositions n config,
      k.half = some Half.left → k2.half = some Half.right → k.id < k2.id) ∧
    ((generateSplitKeyPositions n config).map Key.id = List.range 42) := by
  intro n config h
  have hred : generateSplitKeyPositions n config = canonicalSplitKeys := by
    simp only [generateSplitKeyPositions, h]
  rw [hred]
  exact ⟨by decide, by decide,
    fun k hk hl => (canonicalSplitKeys_geometry k hk).1 hl,
    fun k hk hr => (canonicalSplitKeys_geometry k hk).2.1 hr,
    fun k hk hr => (canonicalSplitKeys_geometry k hk).2.2.1 hr,
    fun k hk hr => (canonicalSplitKeys_geometry k hk).2.2.2 hr,
    by decide, by decide, by decide, by decide, by decide, by decide⟩

/-- Witness for C7 at n = 7 with the empty config. -/
theorem claim_C7_canonical_split_witness :
    (generateSplitKeyPositions 7 emptyConfig).length = 42 ∧
    (∀ k ∈ generateSplitKeyPositions 7 emptyConfig, k.half.isSome = true) ∧
    (∀ k ∈ generateSplitKeyPositions 7 emptyConfig,
      k.half = some Half.left → k.x = (k.col : ℚ) * 50 + 10) ∧
    (∀ k ∈ generateSplitKeyPositions 7 emptyConfig,
      k.half = some Half.right → k.x = (k.col : ℚ) * 50 + 10 + 6 * 50 + 100) ∧
    (∀ k ∈ generateSplitKeyPositions 7 emptyConfig,
      k.row = 3 → k.y = (3 : ℚ) * 50 + 10 + 15) ∧
    (∀ k ∈ generateSplitKeyPositions 7 emptyConfig,
      k.row < 3 → k.y = (k.row : ℚ) * 50 + 10) ∧
    ((generateSplitKeyPositions 7 emptyConfig).filter
      (fun k => decide (k.half = some Half.left) && decide (k.row < 3))).length = 18 ∧
    ((generateSplitKeyPositions 7 emptyConfig).filter
      (fun k => decide (k.half = some Half.left) && decide (k.row = 3))).length = 3 ∧
    ((generateSplitKeyPositions 7 emptyConfig).filter
      (fun k => decide (k.half = some Half.right) && decide (k.row < 3))).length = 18 ∧
    ((generateSplitKeyPositions 7 emptyConfig).filter
      (fun k => decide (k.half = some Half.right) && decide (k.row = 3))).length = 3 ∧
    (∀ k ∈ generateSplitKeyPositions 7 emptyConfig,
      ∀ k2 ∈ generateSplitKeyPositions 7 emptyConfig,
      k.half = some Half.left → k2.half = some Half.right → k.id < k2.id) ∧
    ((generateSplitKeyPositions 7 emptyConfig).map Key.id = List.range 42) :=
  claim_C7_canonical_split 7 emptyConfig rfl

/-- Counterexample to claim C4: a declarative-keymap scan with one layer of
48 binding tokens and no split textual cues does not get flat-grid
synthesis of 48 keys with layout ortholinear — 48 lies in the [30,50]
split key-count range, so the split-grid generator runs instead. -/
theorem claim_C4_counterexample :
    ¬ ((parseZmkKeymap scan48 "test.keymap").keys.length = 48 ∧
       (∀ k ∈ (parseZmkKeymap scan48 "test.keymap").keys, k.half = none) ∧
       detectLayout (parseZmkKeymap scan48 "test.keymap") = keyboardLayouts_ortho) := by
  decide

/-- Claim C4 as amended: a declarative-keymap text with exactly one layer
of 48 binding tokens and no split textual cues triggers the ZMK split
heuristic (48 ∈ [30,50]), so the model gets split-grid synthesis — the
canonical 42 keys, each carrying `half` — a true split metadata flag, and
inferred layout family split. -/
theorem claim_C4_zmk_48 :
    ∀ (incl : Option String) (layerName : String) (toks : List String) (fileName : String),
      toks.length = 48 →
      (parseZmkKeymap ⟨incl, false, [⟨layerName, toks⟩]⟩ fileName).keys.length = 42 ∧
      (∀ k ∈ (parseZmkKeymap ⟨incl, false, [⟨layerName, toks⟩]⟩ fileName).keys,
        k.half.isSome = true) ∧
      (parseZmkKeymap ⟨incl, false, [⟨layerName, toks⟩]⟩ fileName).metadata.isSplit =
        some true ∧
      detectLayout (parseZmkKeymap ⟨incl, false, [⟨layerName, toks⟩]⟩ fileName) =
        keyboardLayouts_split := by
  intro incl layerName toks fileName h
  have hcond : zmkSplitCondition false toks.length = true := by
    rw [h]
    decide
  have hkeys : (parseZmkKeymap ⟨incl, false, [⟨layerName, toks⟩]⟩ fileName).keys =
      canonicalSplitKeys := by
    show (if zmkSplitCondition false toks.length then
            generateSplitKeyPositions toks.length emptyConfig
          else generateKeyPositions toks.length) = canonicalSplitKeys
    simp only [hcond, if_true]
    rfl
  have hmeta : (parseZmkKeymap ⟨incl, false, [⟨layerName, toks⟩]⟩ fileName).metadata.isSplit =
      some true := by
    show (if zmkSplitCondition false toks.length then some true else none) = some true
    simp only [hcond, if_true]
  refine ⟨?_, ?_, hmeta, ?_⟩
  · rw [hkeys]
    decide
  · rw [hkeys]
    decide
  · unfold detectLayout
    rw [hmeta]
    simp

/-- Witness for C4 on a concrete 48-token layer. -/
theorem claim_C4_zmk_48_witness :
    (parseZmkKeymap ⟨none, false, [⟨"default_layer", List.replicate 48 "&kp A"⟩]⟩
      "test.keymap").keys.length = 42 ∧
    (∀ k ∈ (parseZmkKeymap ⟨none, false, [⟨"default_layer", List.replicate 48 "&kp A"⟩]⟩
      "test.keymap").keys, k.half.isSome = true) ∧
    (parseZmkKeymap ⟨none, false, [⟨"default_layer", List.replicate 48 "&kp A"⟩]⟩
      "test.keymap").metadata.isSplit = some true ∧
    detectLayout (parseZmkKeymap ⟨none, false, [⟨"default_layer", List.replicate 48 "&kp A"⟩]⟩
      "test.keymap") = keyboardLayouts_split :=
  claim_C4_zmk_48 none "default_layer" (List.replicate 48 "&kp A") "test.keymap" (by decide)

/-- The gap scan never returns a smaller maximum than its accumulator, and
if every remaining gap is at most the accumulator the scan returns the
accumulator and its position unchanged. -/
theorem scanGaps_all_le :
    ∀ (rest : List ℚ) (prev m p : ℚ),
      (∀ g ∈ adjacentGaps (prev :: rest), g ≤ m) →
      scanGaps prev m p rest = (m, p) := by
  intro rest
  induction rest with
  | nil => intro prev m p _; rfl
  | cons x rest ih =>
    intro prev m p hle
    have h0 : x - prev ≤ m := hle (x - prev) (by simp [adjacentGaps])
    show (if m < x - prev then scanGaps x (x - prev) x rest else scanGaps x m p rest) = (m, p)
    rw [if_neg (not_lt.mpr h0)]
    exact ih x m p fun g hg => hle g (by simp [adjacentGaps, hg])

/-- If some adjacent gap strictly exceeds the accumulator and strictly
exceeds every other adjacent gap, the scan returns that gap together with
the x value just after it. -/
theorem scanGaps_unique_max :
    ∀ (rest : List ℚ) (prev m p : ℚ) (i : ℕ),
      i < (adjacentGaps (prev :: rest)).length →
      m < (adjacentGaps (prev :: rest)).getD i 0 →
      (∀ j, j < (adjacentGaps (prev :: rest)).length → j ≠ i →
        (adjacentGaps (prev :: rest)).getD j 0 < (adjacentGaps (prev :: rest)).getD i 0) →
      scanGaps prev m p rest =
        ((adjacentGaps (prev :: rest)).getD i 0, (prev :: rest).getD (i + 1) 0) := by
  intro rest
  induction rest with
  | nil =>
    intro prev m p i hi
    simp [adjacentGaps] at hi
  | cons x rest ih =>
    intro prev m p i hi hm huniq
    have hgaps : adjacentGaps (prev :: x :: rest) = (x - prev) :: adjacentGaps (x :: rest) := rfl
    match i with
    | 0 =>
      have hcond : m < x - prev := by
        rw [hgaps] at hm
        simpa using hm
      show (if m < x - prev then scanGaps x (x - prev) x rest else scanGaps x m p rest) =
        ((adjacentGaps (prev :: x :: rest)).getD 0 0, (prev :: x :: rest).getD 1 0)
      rw [if_pos hcond]
      have hrest : ∀ g ∈ adjacentGaps (x :: rest), g ≤ x - prev := by
        intro g hg
        obtain ⟨j, hj, rfl⟩ := List.mem_iff_getElem.mp hg
        have hlt := huniq (j + 1) (by rw [hgaps]; simpa using hj) (by omega)
        rw [hgaps] at hlt
        simp only [List.getD_cons_succ, List.getD_cons_zero] at hlt
        rw [List.getD_eq_getElem _ _ hj] at hlt
        exact le_of_lt hlt
      rw [scanGaps_all_le rest x (x - prev) x hrest, hgaps]
      simp
    | j + 1 =>
      have hi' : j < (adjacentGaps (x :: rest)).length := by
        rw [hgaps] at hi
        simpa using hi
      have hm' : m < (adjacentGaps (x :: rest)).getD j 0 := by
        rw [hgaps] at hm
        simpa using hm
      have huniq' : ∀ j2, j2 < (adjacentGaps (x :: rest)).length → j2 ≠ j →
          (adjacentGaps (x :: rest)).getD j2 0 < (adjacentGaps (x :: rest)).getD j 0 := by
        intro j2 hj2 hne
        have := huniq (j2 + 1) (by rw [hgaps]; simpa using hj2) (by omega)
        rw [hgaps] at this
        simpa using this
      have hgap0 : x - prev < (adjacentGaps (x :: rest)).getD j 0 := by
        have := huniq 0 (by rw [hgaps]; simp) (by omega)
        rw [hgaps] at this
        simpa using this
      show (if m < x - prev then scanGaps x (x - prev) x rest else scanGaps x m p rest) =
        ((adjacentGaps (prev :: x :: rest)).getD (j + 1) 0, (prev :: x :: rest).getD (j + 2) 0)
      rw [hgaps]
      simp only [List.getD_cons_succ]
      by_cases hc : m < x - prev
      · rw [if_pos hc]
        exact ih x (x - prev) x j hi' hgap0 huniq'
      · rw [if_neg hc]
        exact ih x m p j hi' hm' huniq'

/-- `findSplitGap` on a list whose adjacent gaps have a strict unique
maximum above the initial accumulator 0 returns that gap and the x value
just after it. -/
theorem findSplitGap_unique_max (ys : List ℚ) (i : ℕ)
    (hi : i < (adjacentGaps ys).length)
    (h0 : 0 < (adjacentGaps ys).getD i 0)
    (huniq : ∀ j, j < (adjacentGaps ys).length → j ≠ i →
      (adjacentGaps ys).getD j 0 < (adjacentGaps ys).getD i 0) :
    findSplitGap ys = ((adjacentGaps ys).getD i 0, ys.getD (i + 1) 0) := by
  match ys with
  | [] => simp [adjacentGaps] at hi
  | y :: rest => exact scanGaps_unique_max rest y 0 0 i hi h0 huniq

/-- The running maximum of the gap scan stays below any bound that covers
the accumulator and all adjacent gaps. -/
theorem scanGaps_fst_le :
    ∀ (rest : List ℚ) (prev m p c : ℚ), m ≤ c →
      (∀ g ∈ adjacentGaps (prev :: rest), g ≤ c) →
      (scanGaps prev m p rest).1 ≤ c := by
  intro rest
  induction rest with
  | nil => intro prev m p c hm _; exact hm
  | cons x rest ih =>
    intro prev m p c hm hle
    show (if m < x - prev then scanGaps x (x - prev) x rest else scanGaps x m p rest).1 ≤ c
    by_cases hc : m < x - prev
    · rw [if_pos hc]
      exact ih x (x - prev) x c (hle _ (by simp [adjacentGaps]))
        (fun g hg => hle g (by simp [adjacentGaps, hg]))
    · rw [if_neg hc]
      exact ih x m p c hm (fun g hg => hle g (by simp [adjacentGaps, hg]))

/-- The maximum-gap component of `findSplitGap` is bounded by any
non-negative bound on the adjacent gaps. -/
theorem findSplitGap_fst_le (ys : List ℚ) (c : ℚ) (hc : 0 ≤ c)
    (h : ∀ g ∈ adjacentGaps ys, g ≤ c) : (findSplitGap ys).1 ≤ c := by
  match ys with
  | [] => simpa [findSplitGap] using hc
  | y :: rest => exact scanGaps_fst_le rest y 0 0 c hc h

/-- A key whose x-coordinate is at or beyond the split boundary is assigned
to the right half and receives the 50px split offset. -/
theorem mkLayoutKey_split_right (b : ℚ) (idx : ℕ) (kd : KeyDef) (h : b ≤ kd.x) :
    (mkLayoutKey true 50 b idx kd).half = some Half.right ∧
    (mkLayoutKey true 50 b idx kd).x = kd.x * 50 + 10 + 50 := by
  constructor <;> simp [mkLayoutKey, h]

/-- A key whose x-coordinate is strictly below the split boundary stays in
the left half with no offset. -/
theorem mkLayoutKey_split_left (b : ℚ) (idx : ℕ) (kd : KeyDef) (h : kd.x < b) :
    (mkLayoutKey true 50 b idx kd).half = some Half.left ∧
    (mkLayoutKey true 50 b idx kd).x = kd.x * 50 + 10 := by
  constructor <;> simp [mkLayoutKey, if_neg (not_le.mpr h)]

/-- Claim C1: in coordinate-based synthesis with `isSplit`, when the sorted
unit x-coordinates have a unique maximum adjacent gap strictly above 1.5,
the x value just after that gap is the split boundary: keys at or beyond it
go to the right half with an extra 50px offset, keys below it stay left
with no offset; on x-coordinates 0..5,10..15 the boundary is 10 (gap 5). -/
theorem claim_C1_gap_boundary :
    (∀ (layoutArray : List KeyDef) (i : ℕ),
      i < (adjacentGaps (sortAsc (layoutArray.map KeyDef.x))).length →
      3 / 2 < (adjacentGaps (sortAsc (layoutArray.map KeyDef.x))).getD i 0 →
      (∀ j, j < (adjacentGaps (sortAsc (layoutArray.map KeyDef.x))).length → j ≠ i →
        (adjacentGaps (sortAsc (layoutArray.map KeyDef.x))).getD j 0 <
          (adjacentGaps (sortAsc (layoutArray.map KeyDef.x))).getD i 0) →
      ∀ jk, jk < layoutArray.length →
        ((sortAsc (layoutArray.map KeyDef.x)).getD (i + 1) 0 ≤
            (layoutArray.getD jk dKeyDef).x →
          ((generateKeysFromLayout layoutArray true).getD jk dKey).half =
            some Half.right ∧
          ((generateKeysFromLayout layoutArray true).getD jk dKey).x =
            (layoutArray.getD jk dKeyDef).x * 50 + 10 + 50) ∧
        ((layoutArray.getD jk dKeyDef).x <
            (sortAsc (layoutArray.map KeyDef.x)).getD (i + 1) 0 →
          ((generateKeysFromLayout layoutArray true).getD jk dKey).half =
            some Half.left ∧
          ((generateKeysFromLayout layoutArray true).getD jk dKey).x =
            (layoutArray.getD jk dKeyDef).x * 50 + 10)) ∧
    findSplitGap (sortAsc (layout12.map KeyDef.x)) = (5, 10) ∧
    (generateKeysFromLayout layout12 true).map (fun k => (k.half, k.x)) =
      [(some Half.left, 10), (some Half.left, 60), (some Half.left, 110),
       (some Half.left, 160), (some Half.left, 210), (some Half.left, 260),
       (some Half.right, 560), (some Half.right, 610), (some Half.right, 660),
       (some Half.right, 710), (some Half.right, 760), (some Half.right, 810)] := by
  refine ⟨?_, ?_, ?_⟩
  · intro arr i hi hgt huniq jk hjk
    have hb : splitBoundary arr true = (sortAsc (arr.map KeyDef.x)).getD (i + 1) 0 := by
      cases arr with
      | nil => simp [sortAsc, adjacentGaps] at hi
      | cons a rest =>
        have hfind := findSplitGap_unique_max (sortAsc ((a :: rest).map KeyDef.x)) i hi
          (lt_trans (by norm_num) hgt) huniq
        show (if 3 / 2 < (findSplitGap (sortAsc ((a :: rest).map KeyDef.x))).1 then
                (findSplitGap (sortAsc ((a :: rest).map KeyDef.x))).2 else 0) =
          (sortAsc ((a :: rest).map KeyDef.x)).getD (i + 1) 0
        rw [hfind]
        dsimp only
        rw [if_pos hgt]
    have hget : (generateKeysFromLayout arr true).getD jk dKey =
        mkLayoutKey true (if true then (50 : ℚ) else 0) (splitBoundary arr true)
          (0 + jk) (arr.getD jk dKeyDef) := by
      unfold generateKeysFromLayout
      exact buildLayoutKeys_getD _ _ _ arr 0 jk hjk
    constructor
    · intro hx
      rw [hget]
      have hbx : splitBoundary arr true ≤ (arr.getD jk dKeyDef).x := by
        rw [hb]
        exact hx
      exact mkLayoutKey_split_right _ _ _ hbx
    · intro hx
      rw [hget]
      have hbx : (arr.getD jk dKeyDef).x < splitBoundary arr true := by
        rw [hb]
        exact hx
      exact mkLayoutKey_split_left _ _ _ hbx
  · norm_num [layout12, unitKeyDef, sortAsc, insertSorted, findSplitGap, scanGaps]
  · norm_num [layout12, unitKeyDef, generateKeysFromLayout, buildLayoutKeys, mkLayoutKey,
      splitBoundary, sortAsc, insertSorted, findSplitGap, scanGaps]
    decide

/-- Witness for C1 on the twelve-key scenario at gap index 5 and key
index 7 (x = 11, at or beyond the boundary 10). -/
theorem claim_C1_gap_boundary_witness :
    ((generateKeysFromLayout layout12 true).getD 7 dKey).half = some Half.right ∧
    ((generateKeysFromLayout layout12 true).getD 7 dKey).x =
      (layout12.getD 7 dKeyDef).x * 50 + 10 + 50 := by
  have hev : adjacentGaps (sortAsc (layout12.map KeyDef.x)) =
      [1, 1, 1, 1, 1, 5, 1, 1, 1, 1, 1] := by
    norm_num [layout12, unitKeyDef, sortAsc, insertSorted, adjacentGaps]
  refine (claim_C1_gap_boundary.1 layout12 5 ?_ ?_ ?_ 7 (by decide)).1 ?_
  · rw [hev]
    norm_num
  · rw [hev]
    norm_num [List.getD_cons_zero, List.getD_cons_succ]
  · intro j hj hne
    rw [hev] at hj ⊢
    simp only [List.length_cons, List.length_nil] at hj
    interval_cases j <;>
      first
      | (exact absurd rfl hne)
      | norm_num [List.getD_cons_zero, List.getD_cons_succ]
  · norm_num [layout12, unitKeyDef, sortAsc, insertSorted,
      List.getD_cons_zero, List.getD_cons_succ]

/-- Counterexample to claim C2: on the two-key layout with x-coordinates 0
and 1 (no gap above 1.5) and `isSplit`, the keys are not all assigned
`half = left` with unshifted positions — the boundary stays 0 and both
keys (x ≥ 0) go right with the 50px offset. -/
theorem claim_C2_counterexample :
    ¬ ((∀ jk, jk < twoKeyLayout.length →
          ((generateKeysFromLayout twoKeyLayout true).getD jk dKey).x =
            (twoKeyLayout.getD jk dKeyDef).x * 50 + 10) ∧
       (∀ k ∈ generateKeysFromLayout twoKeyLayout true, k.half = some Half.left)) := by
  rintro ⟨hP, _⟩
  have h0 := hP 0 (by decide)
  have hval : ((generateKeysFromLayout twoKeyLayout true).getD 0 dKey).x = 60 := by
    norm_num [twoKeyLayout, unitKeyDef, generateKeysFromLayout, buildLayoutKeys,
      mkLayoutKey, splitBoundary, sortAsc, insertSorted, findSplitGap, scanGaps]
  rw [hval] at h0
  norm_num [twoKeyLayout, unitKeyDef, List.getD_cons_zero] at h0

/-- Claim C2 as amended: when no adjacent gap of the sorted x-coordinates
exceeds the 1.5 threshold, the boundary stays 0, so every key with a
non-negative x-coordinate is assigned `half = right` and receives the 50px
offset; only keys with negative x stay `half = left` with no offset. -/
theorem claim_C2_below_threshold :
    ∀ (arr : List KeyDef) (jk : ℕ),
      (∀ g ∈ adjacentGaps (sortAsc (arr.map KeyDef.x)), g ≤ 3 / 2) →
      jk < arr.length →
      (0 ≤ (arr.getD jk dKeyDef).x →
        ((generateKeysFromLayout arr true).getD jk dKey).half = some Half.right ∧
        ((generateKeysFromLayout arr true).getD jk dKey).x =
          (arr.getD jk dKeyDef).x * 50 + 10 + 50) ∧
      ((arr.getD jk dKeyDef).x < 0 →
        ((generateKeysFromLayout arr true).getD jk dKey).half = some Half.left ∧
        ((generateKeysFromLayout arr true).getD jk dKey).x =
          (arr.getD jk dKeyDef).x * 50 + 10) := by
  intro arr jk hgaps hjk
  have hb : splitBoundary arr true = 0 := by
    cases arr with
    | nil => rfl
    | cons a rest =>
      have hle := findSplitGap_fst_le (sortAsc ((a :: rest).map KeyDef.x)) (3 / 2)
        (by norm_num) hgaps
      show (if 3 / 2 < (findSplitGap (sortAsc ((a :: rest).map KeyDef.x))).1 then
              (findSplitGap (sortAsc ((a :: rest).map KeyDef.x))).2 else 0) = 0
      rw [if_neg (not_lt.mpr hle)]
  have hget : (generateKeysFromLayout arr true).getD jk dKey =
      mkLayoutKey true (if true then (50 : ℚ) else 0) (splitBoundary arr true)
        (0 + jk) (arr.getD jk dKeyDef) := by
    unfold generateKeysFromLayout
    exact buildLayoutKeys_getD _ _ _ arr 0 jk hjk
  constructor
  · intro hx
    rw [hget]
    have hbx : splitBoundary arr true ≤ (arr.getD jk dKeyDef).x := by
      rw [hb]
      exact hx
    exact mkLayoutKey_split_right _ _ _ hbx
  · intro hx
    rw [hget]
    have hbx : (arr.getD jk dKeyDef).x < splitBoundary arr true := by
      rw [hb]
      exact hx
    exact mkLayoutKey_split_left _ _ _ hbx

/-- Witness for the amended C2 on the two-key layout at key index 0. -/
theorem claim_C2_below_threshold_witness :
    ((generateKeysFromLayout twoKeyLayout true).getD 0 dKey).half = some Half.right ∧
    ((generateKeysFromLayout twoKeyLayout true).getD 0 dKey).x =
      (twoKeyLayout.getD 0 dKeyDef).x * 50 + 10 + 50 :=
  (claim_C2_below_threshold twoKeyLayout 0
    (by norm_num [twoKeyLayout, unitKeyDef, sortAsc, insertSorted, adjacentGaps])
    (by decide)).1
    (by norm_num [twoKeyLayout, unitKeyDef, List.getD_cons_zero])
